import Mathlib

/-!
Verification of the `kaniko-runner` companion service
(`src/kaniko-runner/main.go`) against its natural-language specification.

The Go program is shallowly embedded: the JSON request decoding follows
`encoding/json` semantics on the two struct types, the connection handler
`handleConnection` is modelled as a function from the connection input and
an environment (outcomes of the external calls: registry logins, pipe
creation, process start, process wait, and the child's output chunks) to
the set of possible event traces, one per interleaving of the two
stream-copy goroutines with the waiting main task.
-/

namespace KanikoRunner

/-- Where a console write goes (`os.Stdout` / `os.Stderr`). -/
inductive Sink where
  | stdout
  | stderr
deriving DecidableEq, Repr

/-- Go struct `inputCredentials` (main.go lines 27-32): JSON fields
`registry`, `username`, `password`, `insecure`.  Note there is no `auth`
field. -/
structure inputCredentials where
  registry : String := ""
  username : String := ""
  password : String := ""
  insecure : Bool := false
deriving DecidableEq, Repr

/-- Go struct `inputRequest` (main.go lines 22-25): JSON fields `command`
(list of strings) and `credentials`. -/
structure inputRequest where
  command : List String := []
  credentials : List inputCredentials := []
deriving DecidableEq, Repr

/-- JSON values, as far as the request decoding needs them. -/
inductive Json where
  | null
  | bool (b : Bool)
  | num (n : Int)
  | str (s : String)
  | arr (elems : List Json)
  | obj (fields : List (String × Json))

/-- `encoding/json` unmarshalling of a JSON array into `[]string`:
every element must be a string (a `null` element would error as well,
conservatively modelled as an error too). -/
def decodeStringList : List Json → Except String (List String)
  | [] => .ok []
  | .str s :: rest => (decodeStringList rest).map (fun xs => s :: xs)
  | _ :: _ => .error "json: cannot unmarshal element into Go value of type string"

/-- One field of `inputCredentials` during unmarshalling: known keys are
assigned (JSON `null` is a no-op, a wrong type is an error), unknown keys
such as `auth` are ignored, matching `encoding/json`. -/
def setCredField : inputCredentials → String × Json → Except String inputCredentials
  | c, ("registry", .str s) => .ok { c with registry := s }
  | c, ("registry", .null) => .ok c
  | _, ("registry", _) => .error "json: cannot unmarshal into field registry of type string"
  | c, ("username", .str s) => .ok { c with username := s }
  | c, ("username", .null) => .ok c
  | _, ("username", _) => .error "json: cannot unmarshal into field username of type string"
  | c, ("password", .str s) => .ok { c with password := s }
  | c, ("password", .null) => .ok c
  | _, ("password", _) => .error "json: cannot unmarshal into field password of type string"
  | c, ("insecure", .bool b) => .ok { c with insecure := b }
  | c, ("insecure", .null) => .ok c
  | _, ("insecure", _) => .error "json: cannot unmarshal into field insecure of type bool"
  | c, (_, _) => .ok c

/-- Unmarshal one element of the `credentials` array. -/
def decodeCredential : Json → Except String inputCredentials
  | .obj fields => fields.foldlM setCredField {}
  | .null => .ok {}
  | _ => .error "json: cannot unmarshal into Go value of type main.inputCredentials"

/-- One field of `inputRequest` during unmarshalling. -/
def setReqField : inputRequest → String × Json → Except String inputRequest
  | r, ("command", .arr xs) => (decodeStringList xs).map (fun cmd => { r with command := cmd })
  | r, ("command", .null) => .ok r
  | _, ("command", _) => .error "json: cannot unmarshal into field command"
  | r, ("credentials", .arr xs) =>
      (xs.mapM decodeCredential).map (fun cs => { r with credentials := cs })
  | r, ("credentials", .null) => .ok r
  | _, ("credentials", _) => .error "json: cannot unmarshal into field credentials"
  | r, (_, _) => .ok r

/-- `json.Unmarshal` of the request line into `inputRequest`
(main.go lines 86-90): the top-level value must be a JSON object;
absent keys keep the zero value (empty `command`, empty `credentials`). -/
def decodeRequest : Json → Except String inputRequest
  | .obj fields => fields.foldlM setReqField {}
  | _ => .error "json: cannot unmarshal into Go value of type main.inputRequest"

/-- The parse result of the listen address (`url.Parse` output fields the
code reads). -/
structure URL where
  scheme : String
  host : String
  path : String
deriving DecidableEq, Repr

/-- What `net.Listen` was asked to bind. -/
inductive ListenTarget where
  | tcp (host : String)
  | unix (path : String)
deriving DecidableEq, Repr

/-- `listen` (main.go lines 34-49), after a successful `url.Parse`:
scheme `tcp` binds host, scheme `unix` binds host+path, anything else is
the error `unsupported network type`. -/
def listen (parts : URL) : Except String ListenTarget :=
  if parts.scheme = "tcp" then .ok (.tcp parts.host)
  else if parts.scheme = "unix" then .ok (.unix (parts.host ++ parts.path))
  else .error "unsupported network type"

/-- Outcome of process startup in `main` (lines 160-163). -/
inductive MainStart where
  | serving (t : ListenTarget)
  | panicked (e : String)
deriving DecidableEq, Repr

/-- `main` lines 160-163: a `listen` error is `panic`ked, otherwise the
accept loop starts serving on the bound listener. -/
def mainStart (parts : URL) : MainStart :=
  match listen parts with
  | .ok t => .serving t
  | .error e => .panicked e

/-- A command-line flag registration: name and default value. -/
structure FlagSpec where
  name : String
  defaultValue : String
deriving DecidableEq, Repr

/-- The flags `main` registers (main.go lines 156-158): exactly one,
`address`, via `flag.StringVar`. -/
def declaredFlags : List FlagSpec :=
  [⟨"address", "tcp://localhost:8080"⟩]

/-- Result of one `ln.Accept()` call. -/
inductive AcceptResult where
  | ok
  | failed
deriving DecidableEq, Repr

/-- What the accept loop does after one `Accept` (main.go lines 165-172). -/
inductive DispatcherAct where
  | spawnHandlerAndContinue
  | panicked
deriving DecidableEq, Repr

/-- One iteration of the accept loop in `main` (lines 165-172): a
successful accept spawns `handleConnection` in a goroutine and loops
again; an accept error panics. -/
def dispatchStep : AcceptResult → DispatcherAct
  | .ok => .spawnHandlerAndContinue
  | .failed => .panicked

/-- Observable events of one connection handling.

* `childChunk sink s` — an `io.Copy` step: the `io.MultiWriter` writes the
  chunk `s` of child output both to the console sink and to the connection
  (main.go lines 136-137, 145-146).
* `errLine e` — `returnError`'s `fmt.Fprintln(conn, err)` together with its
  `log.Println(err)` (lines 52-53): the error text goes to the connection
  and to the console log.
* `statusLine s` — a `fmt.Fprintln(conn, "status: ...")` (line 54 or 152):
  written to the connection only.
* `logMsg s` — a `log.Printf` progress message (lines 110, 118): console
  only.
* `loginCall` — the `auth.Login` call with the options the code builds
  (lines 99-115); `skipTLS` is `SystemContext.DockerInsecureSkipTLSVerify`.
* `execStart` — a successful `cmd.Start()` of `Command[0]` with arguments
  `Command[1:]` (lines 121, 139). -/
inductive Ev where
  | childChunk (sink : Sink) (s : String)
  | errLine (e : String)
  | statusLine (s : String)
  | logMsg (s : String)
  | loginCall (registry username password : String) (skipTLS : Bool)
  | execStart (prog : String) (args : List String)
deriving DecidableEq, Repr

/-- The bytes an event sends to the remote connection. -/
def connStr : Ev → String
  | .childChunk _ s => s
  | .errLine e => e ++ "\n"
  | .statusLine s => s ++ "\n"
  | .logMsg _ => ""
  | .loginCall _ _ _ _ => ""
  | .execStart _ _ => ""

/-- The bytes an event writes to the local console (the log events are the
message text; the real logger prepends a timestamp). -/
def consoleStr : Ev → String
  | .childChunk _ s => s
  | .errLine e => e ++ "\n"
  | .statusLine _ => ""
  | .logMsg s => s ++ "\n"
  | .loginCall _ _ _ _ => ""
  | .execStart _ _ => ""

/-- All bytes a trace sends to the remote connection, in order. -/
def connBytes (t : List Ev) : String :=
  String.join (t.map connStr)

/-- Outcomes of the external calls `handleConnection` makes, plus the
child's output chunks as delivered to each copy goroutine. -/
structure Env where
  login : inputCredentials → Option String
  stdoutPipeErr : Option String := none
  stderrPipeErr : Option String := none
  startErr : Option String := none
  waitErr : Option String := none
  childOut : List String := []
  childErr : List String := []

/-- One complete run of `handleConnection`: its event trace and whether it
ended in a Go runtime panic. -/
structure HRun where
  trace : List Ev
  panicked : Bool
deriving DecidableEq, Repr

/-- `returnError` (main.go lines 51-55): error text, then the literal
`status: FAILED` line. -/
def returnErrorEvs (e : String) : List Ev :=
  [.errLine e, .statusLine "status: FAILED"]

/-- The events of one iteration of the credential loop (lines 92-116). -/
def loginEvs (c : inputCredentials) : List Ev :=
  [.logMsg ("Logging in to " ++ c.registry),
   .loginCall c.registry c.username c.password c.insecure]

/-- The credential loop (lines 92-116): login to each registry in order;
the first failing login stops the loop with its error. -/
def credPhase (login : inputCredentials → Option String) :
    List inputCredentials → List Ev × Option String
  | [] => ([], none)
  | c :: cs =>
    match login c with
    | some e => (loginEvs c, some e)
    | none =>
      let r := credPhase login cs
      (loginEvs c ++ r.1, r.2)

/-- Helper for `merges2`: interleavings of `x :: xs` with the second
argument, where `f` computes the interleavings of `xs` with a list. -/
def mergeCons {α : Type} (x : α) (xs : List α) (f : List α → List (List α)) :
    List α → List (List α)
  | [] => [x :: xs]
  | y :: ys =>
      ((f (y :: ys)).map (fun m => x :: m)) ++
      ((mergeCons x xs f ys).map (fun m => y :: m))

/-- All interleavings of two sequences that preserve each sequence's
internal order. -/
def merges2 {α : Type} : List α → List α → List (List α)
  | [], ys => [ys]
  | x :: xs, ys => mergeCons x xs (merges2 xs) ys

/-- All interleavings of three sequences. -/
def merges3 {α : Type} (a b c : List α) : List (List α) :=
  (merges2 a b).flatMap (fun m => merges2 m c)

/-- The `log.Printf("Running command: %s", input.Command)` text (line 118);
Go formats a `[]string` as the elements separated by spaces inside
brackets. -/
def runningLogMsg (cmd : List String) : Ev :=
  .logMsg ("Running command: [" ++ String.intercalate " " cmd ++ "]")

/-- The steps of the goroutine `go io.Copy(stdoutWriter, stdout)`
(line 145): one `MultiWriter` write per delivered chunk. -/
def outTask (env : Env) : List Ev :=
  env.childOut.map (Ev.childChunk .stdout)

/-- The steps of the goroutine `go io.Copy(stderrWriter, stderr)`
(line 146). -/
def errTask (env : Env) : List Ev :=
  env.childErr.map (Ev.childChunk .stderr)

/-- The steps of the main task after `Start`: `cmd.Wait()` then the
terminal report (lines 148-152). -/
def tailTask (env : Env) : List Ev :=
  match env.waitErr with
  | some e => returnErrorEvs e
  | none => [Ev.statusLine "status: SUCCESS"]

/-- The handler after a successfully decoded request (main.go lines
92-153).  The credential loop runs first; then the command is spawned with
piped stdout/stderr; after a successful `Start`, the two `io.Copy`
goroutines (one per stream) run unsynchronized with the main task, which
`Wait`s for the child and writes the terminal status — every interleaving
of the three is a possible run (nothing joins the copy goroutines before
the status write).  `input.Command[0]` on an empty `command` is a Go
runtime panic, recorded in `HRun.panicked`. -/
def runRequest (req : inputRequest) (env : Env) : List HRun :=
  match credPhase env.login req.credentials with
  | (credEvs, some e) => [⟨credEvs ++ returnErrorEvs e, false⟩]
  | (credEvs, none) =>
    match req.command with
    | [] => [⟨credEvs ++ [runningLogMsg req.command], true⟩]
    | prog :: args =>
      match env.stdoutPipeErr with
      | some e => [⟨credEvs ++ [runningLogMsg req.command] ++ returnErrorEvs e, false⟩]
      | none =>
        match env.stderrPipeErr with
        | some e => [⟨credEvs ++ [runningLogMsg req.command] ++ returnErrorEvs e, false⟩]
        | none =>
          match env.startErr with
          | some e => [⟨credEvs ++ [runningLogMsg req.command] ++ returnErrorEvs e, false⟩]
          | none =>
            (merges3 (outTask env) (errTask env) (tailTask env)).map
              (fun m => ⟨credEvs ++ [runningLogMsg req.command, .execStart prog args] ++ m, false⟩)

/-- The connection input as the handler sees it after the read and parse
steps: either the read ended before a newline (`bufio`'s `ReadString`
returned an error, line 70-73), or a line was read whose `json.Unmarshal`
text-level parse produced `parsed`. -/
inductive WireInput where
  | noNewline
  | line (parsed : Except String Json)

/-- `handleConnection` (main.go lines 66-153) as the set of its possible
runs: a failed line read returns silently; a JSON parse or decode error is
reported via `returnError`; otherwise the request is processed by
`runRequest`. -/
def handleConnection (wire : WireInput) (env : Env) : List HRun :=
  match wire with
  | .noNewline => [⟨[], false⟩]
  | .line (.error e) => [⟨returnErrorEvs e, false⟩]
  | .line (.ok j) =>
    match decodeRequest j with
    | .error e => [⟨returnErrorEvs e, false⟩]
    | .ok req => runRequest req env

/-- `bufio.NewReader(conn).ReadString('\n')`: the bytes up to and
including the first newline, or `none` (an error) when the connection
ends first. -/
def readLine (raw : String) : Option String :=
  if raw.toList.contains '\n' then
    some (String.mk (raw.toList.takeWhile (fun ch => ch ≠ '\n') ++ ['\n']))
  else none

/-- The lines of a byte stream, split at newline characters. -/
def textLines (s : String) : List String :=
  (s.toList.splitOn '\n').map String.mk

/-- The whole of `handleConnection` from the raw connection bytes, with
the text-level JSON parser abstracted as `parse`. -/
def handleRaw (raw : String) (parse : String → Except String Json) (env : Env) : List HRun :=
  match readLine raw with
  | none => [⟨[], false⟩]
  | some line => handleConnection (.line (parse line)) env

/-- Is the event a successful `cmd.Start()`? -/
def isExec : Ev → Bool
  | .execStart _ _ => true
  | _ => false

/-- Is the event an `auth.Login` call? -/
def isLogin : Ev → Bool
  | .loginCall _ _ _ _ => true
  | _ => false

/-- Is the event one of the service's own report writes to the connection
(an error line or a `status:` line)? -/
def isReport : Ev → Bool
  | .errLine _ => true
  | .statusLine _ => true
  | _ => false

/-- Events the credential loop can produce. -/
def isCredEv : Ev → Bool
  | .logMsg _ => true
  | .loginCall _ _ _ _ => true
  | _ => false

/-- Is the event a child-output copy step? -/
def isChildChunk : Ev → Bool
  | .childChunk _ _ => true
  | _ => false

/-- The service's own report writes in a trace, in order. -/
def reports (t : List Ev) : List Ev :=
  t.filter isReport

/-- No `auth.Login` call occurs at or after the first `cmd.Start()`. -/
def credBeforeExec (t : List Ev) : Bool :=
  (t.dropWhile (fun e => !isExec e)).all (fun e => !isLogin e)

theorem all_mono {α : Type} {q r : α → Bool} (h : ∀ e, q e = true → r e = true) :
    ∀ t : List α, t.all q = true → t.all r = true := by
  intro t ht
  rw [List.all_eq_true] at ht ⊢
  exact fun e he => h e (ht e he)

theorem filter_eq_nil_of_all {α : Type} {p q : α → Bool}
    (h : ∀ e, q e = true → p e = false) :
    ∀ t : List α, t.all q = true → t.filter p = [] := by
  intro t ht
  rw [List.filter_eq_nil_iff]
  rw [List.all_eq_true] at ht
  intro e he
  simp [h e (ht e he)]

theorem dropWhile_append_of_all {α : Type} {p : α → Bool} :
    ∀ {xs : List α} (ys : List α), xs.all p = true →
      (xs ++ ys).dropWhile p = ys.dropWhile p := by
  intro xs
  induction xs with
  | nil => intro ys _; rfl
  | cons x xs ih =>
    intro ys h
    rw [List.all_cons, Bool.and_eq_true] at h
    simp [List.dropWhile_cons, h.1, ih ys h.2]

theorem dropWhile_eq_nil_of_all {α : Type} {p : α → Bool} :
    ∀ {t : List α}, t.all p = true → t.dropWhile p = [] := by
  intro t
  induction t with
  | nil => intro _; rfl
  | cons x xs ih =>
    intro h
    rw [List.all_cons, Bool.and_eq_true] at h
    simp [List.dropWhile_cons, h.1, ih h.2]

theorem merges2_nil_left {α : Type} (ys : List α) : merges2 [] ys = [ys] := rfl

theorem merges2_cons_nil {α : Type} (x : α) (xs : List α) :
    merges2 (x :: xs) [] = [x :: xs] := rfl

theorem merges2_cons_cons {α : Type} (x y : α) (xs ys : List α) :
    merges2 (x :: xs) (y :: ys) =
      ((merges2 xs (y :: ys)).map (fun m => x :: m)) ++
      ((merges2 (x :: xs) ys).map (fun m => y :: m)) := rfl

/-- A merge of two all-`q` sequences is all-`q`. -/
theorem merges2_all {α : Type} (q : α → Bool) :
    ∀ (a b t : List α), t ∈ merges2 a b → a.all q = true → b.all q = true →
      t.all q = true := by
  intro a
  induction a with
  | nil =>
    intro b t ht _ hb
    simp only [merges2_nil_left, List.mem_singleton] at ht
    exact ht ▸ hb
  | cons x xs ih =>
    intro b
    induction b with
    | nil =>
      intro t ht ha _
      simp only [merges2_cons_nil, List.mem_singleton] at ht
      exact ht ▸ ha
    | cons y ys ihb =>
      intro t ht ha hb
      simp only [merges2_cons_cons, List.mem_append, List.mem_map] at ht
      rw [List.all_cons, Bool.and_eq_true] at ha hb
      rcases ht with ⟨m, hm, rfl⟩ | ⟨m, hm, rfl⟩
      · rw [List.all_cons, Bool.and_eq_true]
        exact ⟨ha.1, ih _ _ hm ha.2 (by rw [List.all_cons, Bool.and_eq_true]; exact hb)⟩
      · rw [List.all_cons, Bool.and_eq_true]
        exact ⟨hb.1, ihb _ hm (by rw [List.all_cons, Bool.and_eq_true]; exact ha) hb.2⟩

/-- Filtering a merge whose left side contains no `p`-events gives the
filtered right side. -/
theorem merges2_filter {α : Type} (p : α → Bool) :
    ∀ (a b t : List α), t ∈ merges2 a b → a.all (fun x => !p x) = true →
      t.filter p = b.filter p := by
  intro a
  induction a with
  | nil =>
    intro b t ht _
    simp only [merges2_nil_left, List.mem_singleton] at ht
    exact ht ▸ rfl
  | cons x xs ih =>
    intro b
    induction b with
    | nil =>
      intro t ht ha
      simp only [merges2_cons_nil, List.mem_singleton] at ht
      subst ht
      exact filter_eq_nil_of_all (fun e he => by simpa using he) _ ha
    | cons y ys ihb =>
      intro t ht ha
      simp only [merges2_cons_cons, List.mem_append, List.mem_map] at ht
      rcases ht with ⟨m, hm, rfl⟩ | ⟨m, hm, rfl⟩
      · rw [List.all_cons, Bool.and_eq_true] at ha
        have hx : p x = false := by simpa using ha.1
        simp [List.filter_cons, hx, ih _ _ hm ha.2]
      · simp [List.filter_cons, ihb _ hm ha]

/-- Membership in a three-way merge. -/
theorem mem_merges3 {α : Type} {a b c t : List α} :
    t ∈ merges3 a b c ↔ ∃ m, m ∈ merges2 a b ∧ t ∈ merges2 m c := by
  simp [merges3, List.mem_flatMap]

/-- Every event the credential loop emits is a log message or a login
call. -/
theorem credPhase_credEvs (login : inputCredentials → Option String) :
    ∀ cs : List inputCredentials, (credPhase login cs).1.all isCredEv = true := by
  intro cs
  induction cs with
  | nil => rfl
  | cons c cs ih =>
    simp only [credPhase]
    cases login c with
    | some e => rfl
    | none =>
      simp only [List.all_append]
      rw [Bool.and_eq_true]
      exact ⟨rfl, ih⟩

/-- A login event in the credential loop's trace corresponds to one of the
request's credential entries, with the TLS-skip option equal to that
entry's `insecure` flag. -/
theorem credPhase_login_mem (login : inputCredentials → Option String) :
    ∀ (cs : List inputCredentials) (r u pw : String) (sk : Bool),
      Ev.loginCall r u pw sk ∈ (credPhase login cs).1 →
      (⟨r, u, pw, sk⟩ : inputCredentials) ∈ cs := by
  intro cs
  induction cs with
  | nil => intro r u pw sk h; simp [credPhase] at h
  | cons c cs ih =>
    intro r u pw sk h
    have hc : Ev.loginCall r u pw sk ∈ loginEvs c →
        (⟨r, u, pw, sk⟩ : inputCredentials) = c := by
      intro hm
      simp only [loginEvs, List.mem_cons, List.not_mem_nil, or_false] at hm
      rcases hm with h1 | h1
      · exact absurd h1 (by simp)
      · rw [Ev.loginCall.injEq] at h1
        obtain ⟨h2, h3, h4, h5⟩ := h1
        cases c
        simp_all
    simp only [credPhase] at h
    cases hl : login c with
    | some e =>
      rw [hl] at h
      rw [hc h]
      exact List.mem_cons_self c cs
    | none =>
      rw [hl] at h
      simp only [List.mem_append] at h
      rcases h with h | h
      · rw [hc h]
        exact List.mem_cons_self c cs
      · exact List.mem_cons_of_mem c (ih r u pw sk h)

/-- Case analysis of membership in `runRequest`: a run is a credential
failure, the empty-command panic, a pipe/start failure, or a started run
whose post-`Start` part is an interleaving of the two copy goroutines with
the wait-and-report task. -/
theorem runRequest_mem (req : inputRequest) (env : Env) (t : HRun)
    (ht : t ∈ runRequest req env) :
    (∃ e, (credPhase env.login req.credentials).2 = some e ∧
      t = ⟨(credPhase env.login req.credentials).1 ++ returnErrorEvs e, false⟩) ∨
    ((credPhase env.login req.credentials).2 = none ∧ req.command = [] ∧
      t = ⟨(credPhase env.login req.credentials).1 ++ [runningLogMsg req.command], true⟩) ∨
    (∃ e, (credPhase env.login req.credentials).2 = none ∧ req.command ≠ [] ∧
      (env.stdoutPipeErr = some e ∨
       (env.stdoutPipeErr = none ∧ env.stderrPipeErr = some e) ∨
       (env.stdoutPipeErr = none ∧ env.stderrPipeErr = none ∧ env.startErr = some e)) ∧
      t = ⟨(credPhase env.login req.credentials).1 ++ [runningLogMsg req.command] ++
            returnErrorEvs e, false⟩) ∨
    (∃ prog args m, (credPhase env.login req.credentials).2 = none ∧
      req.command = prog :: args ∧
      env.stdoutPipeErr = none ∧ env.stderrPipeErr = none ∧ env.startErr = none ∧
      m ∈ merges3 (outTask env) (errTask env) (tailTask env) ∧
      t = ⟨(credPhase env.login req.credentials).1 ++
            [runningLogMsg req.command, .execStart prog args] ++ m, false⟩) := by
  rcases hcp : credPhase env.login req.credentials with ⟨credEvs, cr⟩
  simp only [runRequest, hcp] at ht
  simp only [hcp]
  cases cr with
  | some e =>
    simp only [List.mem_singleton] at ht
    exact Or.inl ⟨e, rfl, ht⟩
  | none =>
    cases hcmd : req.command with
    | nil =>
      rw [hcmd] at ht
      simp only [List.mem_singleton] at ht
      exact Or.inr (Or.inl ⟨rfl, rfl, ht⟩)
    | cons prog args =>
      rw [hcmd] at ht
      cases h1 : env.stdoutPipeErr with
      | some e =>
        rw [h1] at ht
        simp only [List.mem_singleton] at ht
        exact Or.inr (Or.inr (Or.inl ⟨e, rfl, List.cons_ne_nil prog args, Or.inl rfl, ht⟩))
      | none =>
        rw [h1] at ht
        cases h2 : env.stderrPipeErr with
        | some e =>
          rw [h2] at ht
          simp only [List.mem_singleton] at ht
          exact Or.inr (Or.inr (Or.inl ⟨e, rfl, List.cons_ne_nil prog args,
            Or.inr (Or.inl ⟨rfl, rfl⟩), ht⟩))
        | none =>
          rw [h2] at ht
          cases h3 : env.startErr with
          | some e =>
            rw [h3] at ht
            simp only [List.mem_singleton] at ht
            exact Or.inr (Or.inr (Or.inl ⟨e, rfl, List.cons_ne_nil prog args,
              Or.inr (Or.inr ⟨rfl, rfl, rfl⟩), ht⟩))
          | none =>
            rw [h3] at ht
            rcases List.mem_map.mp ht with ⟨m, hm, rfl⟩
            exact Or.inr (Or.inr (Or.inr ⟨prog, args, m, rfl, rfl, rfl, rfl, rfl, hm, rfl⟩))

/-- Case analysis of membership in `handleConnection`. -/
theorem handleConnection_mem (wire : WireInput) (env : Env) (t : HRun)
    (ht : t ∈ handleConnection wire env) :
    (wire = .noNewline ∧ t = ⟨[], false⟩) ∨
    (∃ e, wire = .line (.error e) ∧ t = ⟨returnErrorEvs e, false⟩) ∨
    (∃ j e, wire = .line (.ok j) ∧ decodeRequest j = .error e ∧
      t = ⟨returnErrorEvs e, false⟩) ∨
    (∃ j req, wire = .line (.ok j) ∧ decodeRequest j = .ok req ∧
      t ∈ runRequest req env) := by
  cases wire with
  | noNewline =>
    simp only [handleConnection, List.mem_singleton] at ht
    exact Or.inl ⟨rfl, ht⟩
  | line parsed =>
    cases parsed with
    | error e =>
      simp only [handleConnection, List.mem_singleton] at ht
      exact Or.inr (Or.inl ⟨e, rfl, ht⟩)
    | ok j =>
      simp only [handleConnection] at ht
      cases hd : decodeRequest j with
      | error e =>
        rw [hd] at ht
        simp only [List.mem_singleton] at ht
        exact Or.inr (Or.inr (Or.inl ⟨j, e, rfl, hd, ht⟩))
      | ok req =>
        rw [hd] at ht
        exact Or.inr (Or.inr (Or.inr ⟨j, req, rfl, hd, ht⟩))

theorem credEv_not_report {e : Ev} (h : isCredEv e = true) : isReport e = false := by
  cases e <;> simp_all [isCredEv, isReport]

theorem credEv_not_exec {e : Ev} (h : isCredEv e = true) : isExec e = false := by
  cases e <;> simp_all [isCredEv, isExec]

theorem childChunk_not_report {e : Ev} (h : isChildChunk e = true) : isReport e = false := by
  cases e <;> simp_all [isChildChunk, isReport]

theorem childChunk_not_exec {e : Ev} (h : isChildChunk e = true) : isExec e = false := by
  cases e <;> simp_all [isChildChunk, isExec]

theorem childChunk_not_login {e : Ev} (h : isChildChunk e = true) : isLogin e = false := by
  cases e <;> simp_all [isChildChunk, isLogin]

theorem report_not_exec {e : Ev} (h : isReport e = true) : isExec e = false := by
  cases e <;> simp_all [isReport, isExec]

theorem report_not_login {e : Ev} (h : isReport e = true) : isLogin e = false := by
  cases e <;> simp_all [isReport, isLogin]

theorem not_mem_of_all_not {α : Type} {p : α → Bool} {t : List α}
    (h : t.all (fun e => !p e) = true) {e : α} (he : e ∈ t) : p e = false := by
  rw [List.all_eq_true] at h
  simpa using h e he

theorem map_childChunk_all (sink : Sink) (l : List String) :
    (l.map (Ev.childChunk sink)).all isChildChunk = true := by
  induction l with
  | nil => rfl
  | cons s l ih => simp [List.all_cons, isChildChunk, ih]

theorem tailTask_reports_all (env : Env) : (tailTask env).all isReport = true := by
  unfold tailTask
  cases env.waitErr <;> rfl

theorem reports_tailTask (env : Env) : reports (tailTask env) = tailTask env := by
  unfold tailTask reports
  cases env.waitErr <;> rfl

theorem reports_append (a b : List Ev) : reports (a ++ b) = reports a ++ reports b :=
  List.filter_append a b

theorem credPhase_no_report (login : inputCredentials → Option String)
    (cs : List inputCredentials) : reports (credPhase login cs).1 = [] :=
  filter_eq_nil_of_all (fun _ he => credEv_not_report he) _ (credPhase_credEvs login cs)

theorem credPhase_no_exec (login : inputCredentials → Option String)
    (cs : List inputCredentials) :
    (credPhase login cs).1.all (fun e => !isExec e) = true :=
  all_mono (fun _ he => by simp [credEv_not_exec he]) _ (credPhase_credEvs login cs)

/-- In an interleaving of the three post-`Start` tasks, the only report
events are exactly the wait-and-report task's events, in its order. -/
theorem merges3_reports (env : Env) {m : List Ev}
    (hm : m ∈ merges3 (outTask env) (errTask env) (tailTask env)) :
    reports m = tailTask env := by
  rcases mem_merges3.mp hm with ⟨m12, h12, hm2⟩
  have hout : (outTask env).all (fun e => !isReport e) = true :=
    all_mono (fun _ he => by simp [childChunk_not_report he]) _ (map_childChunk_all _ _)
  have herr : (errTask env).all (fun e => !isReport e) = true :=
    all_mono (fun _ he => by simp [childChunk_not_report he]) _ (map_childChunk_all _ _)
  have h12all : m12.all (fun e => !isReport e) = true :=
    merges2_all _ _ _ _ h12 hout herr
  have hf := merges2_filter isReport m12 (tailTask env) m hm2 h12all
  rw [reports, hf]
  exact reports_tailTask env

/-- The post-`Start` interleavings contain no login call and no further
exec event. -/
theorem merges3_no_exec_login (env : Env) {m : List Ev}
    (hm : m ∈ merges3 (outTask env) (errTask env) (tailTask env)) :
    m.all (fun e => !isExec e) = true ∧ m.all (fun e => !isLogin e) = true := by
  rcases mem_merges3.mp hm with ⟨m12, h12, hm2⟩
  have hout1 : (outTask env).all (fun e => !isExec e) = true :=
    all_mono (fun _ he => by simp [childChunk_not_exec he]) _ (map_childChunk_all _ _)
  have herr1 : (errTask env).all (fun e => !isExec e) = true :=
    all_mono (fun _ he => by simp [childChunk_not_exec he]) _ (map_childChunk_all _ _)
  have hout2 : (outTask env).all (fun e => !isLogin e) = true :=
    all_mono (fun _ he => by simp [childChunk_not_login he]) _ (map_childChunk_all _ _)
  have herr2 : (errTask env).all (fun e => !isLogin e) = true :=
    all_mono (fun _ he => by simp [childChunk_not_login he]) _ (map_childChunk_all _ _)
  have htail1 : (tailTask env).all (fun e => !isExec e) = true :=
    all_mono (fun _ he => by simp [report_not_exec he]) _ (tailTask_reports_all env)
  have htail2 : (tailTask env).all (fun e => !isLogin e) = true :=
    all_mono (fun _ he => by simp [report_not_login he]) _ (tailTask_reports_all env)
  constructor
  · exact merges2_all _ _ _ _ hm2 (merges2_all _ _ _ _ h12 hout1 herr1) htail1
  · exact merges2_all _ _ _ _ hm2 (merges2_all _ _ _ _ h12 hout2 herr2) htail2

/-- C7: for every listen address whose scheme is neither `tcp` nor `unix`,
startup fails with the unsupported-scheme error, no listener is bound, and
the process does not begin serving connections. -/
theorem c7_unsupported_scheme_fatal (u : URL)
    (h1 : u.scheme ≠ "tcp") (h2 : u.scheme ≠ "unix") :
    listen u = .error "unsupported network type" ∧
    ∀ tgt : ListenTarget, mainStart u ≠ .serving tgt := by
  have hl : listen u = .error "unsupported network type" := by
    simp [listen, h1, h2]
  refine ⟨hl, fun tgt => ?_⟩
  simp [mainStart, hl]

/-- C7 witness: the scheme `http` is rejected and the process never
serves. -/
theorem c7_witness :
    (URL.mk "http" "example.com:80" "").scheme ≠ "tcp" ∧
    (URL.mk "http" "example.com:80" "").scheme ≠ "unix" ∧
    (listen ⟨"http", "example.com:80", ""⟩ = .error "unsupported network type" ∧
     ∀ tgt : ListenTarget, mainStart ⟨"http", "example.com:80", ""⟩ ≠ .serving tgt) :=
  ⟨by decide, by decide,
   c7_unsupported_scheme_fatal ⟨"http", "example.com:80", ""⟩ (by decide) (by decide)⟩

/-- C4 counterexample: the program registers no CLI flag named `multiple`
(its only flag is `address`), so the claimed boolean `multiple` flag does
not exist. -/
theorem c4_no_multiple_flag :
    ¬ ∃ f ∈ declaredFlags, f.name = "multiple" := by
  decide

/-- C4 amended: the process exposes exactly one CLI flag, the string flag
`address` with default `tcp://localhost:8080`; the dispatcher loops
unconditionally, handling every accepted connection concurrently in its
own goroutine (there is no single-shot mode, no grace-period sleep, and no
exit tied to a connection's outcome), and panics only when `Accept`
fails. -/
theorem c4_single_flag_persistent_dispatcher :
    declaredFlags = [⟨"address", "tcp://localhost:8080"⟩] ∧
    dispatchStep .ok = .spawnHandlerAndContinue ∧
    dispatchStep .failed = .panicked :=
  ⟨rfl, rfl, rfl⟩

/-- C9: if reading the request line fails before a newline is received,
the handler returns immediately: nothing is written on the connection (no
error line, no `status:` trailer) and the handler does not panic. -/
theorem c9_no_newline_silent_close (raw : String)
    (parse : String → Except String Json) (env : Env)
    (h : raw.toList.contains '\n' = false) :
    handleRaw raw parse env = [⟨[], false⟩] ∧
    ∀ t ∈ handleRaw raw parse env, connBytes t.trace = "" ∧ t.panicked = false := by
  have hr : readLine raw = none := by
    simp only [readLine]
    rw [h]
    rfl
  constructor
  · simp [handleRaw, hr]
  · intro t ht
    simp only [handleRaw, hr, List.mem_singleton] at ht
    subst ht
    exact ⟨rfl, rfl⟩

/-- C9 witness: a connection that closes after sending `abc` with no
newline gets nothing back. -/
theorem c9_witness :
    ("abc".toList.contains '\n' = false) ∧
    (handleRaw "abc" (fun _ => .error "unused") { login := fun _ => none } = [⟨[], false⟩] ∧
     ∀ t ∈ handleRaw "abc" (fun _ => .error "unused") { login := fun _ => none },
       connBytes t.trace = "" ∧ t.panicked = false) :=
  ⟨by decide,
   c9_no_newline_silent_close "abc" (fun _ => .error "unused")
     { login := fun _ => none } (by decide)⟩

/-- The request line `{"command":[],"credentials":[]}` as a JSON value. -/
def jEmptyCommand : Json :=
  Json.obj [("command", Json.arr []), ("credentials", Json.arr [])]

/-- C2 (code bug): a request with an empty `command` is decoded
successfully, but the handler then evaluates `input.Command[0]` on the
empty slice — a Go runtime panic.  No `status: FAILED` (nor any report
line) is written to the connection, and since `handleConnection` runs in a
goroutine without `recover`, the panic is fatal to the whole service
process — contradicting the claimed fail-fast FAILED report. -/
theorem c2_empty_command_panics (env : Env) :
    decodeRequest jEmptyCommand = .ok { command := [], credentials := [] } ∧
    handleConnection (.line (.ok jEmptyCommand)) env =
      [⟨[Ev.logMsg "Running command: []"], true⟩] ∧
    ∀ t ∈ handleConnection (.line (.ok jEmptyCommand)) env,
      t.panicked = true ∧ reports t.trace = [] := by
  have h2 : handleConnection (.line (.ok jEmptyCommand)) env =
      [⟨[Ev.logMsg "Running command: []"], true⟩] := rfl
  refine ⟨rfl, h2, ?_⟩
  intro t ht
  rw [h2, List.mem_singleton] at ht
  subst ht
  exact ⟨rfl, rfl⟩

/-- A credential entry that supplies both `auth` and `username`. -/
def jAuthBoth : Json :=
  Json.obj [("registry", Json.str "reg.example"), ("auth", Json.str "c2VjcmV0"),
            ("username", Json.str "u"), ("password", Json.str "p")]

/-- A request carrying `jAuthBoth` and the command `["executor"]`. -/
def jReqAuthBoth : Json :=
  Json.obj [("command", Json.arr [Json.str "executor"]),
            ("credentials", Json.arr [jAuthBoth])]

/-- An environment in which every registry login succeeds. -/
def envOkLogin : Env := { login := fun _ => none }

/-- The unique run of the `jReqAuthBoth` request when logins succeed. -/
def runAuthBoth : HRun :=
  ⟨[.logMsg "Logging in to reg.example", .loginCall "reg.example" "u" "p" false,
    .logMsg "Running command: [executor]", .execStart "executor" [],
    .statusLine "status: SUCCESS"], false⟩

/-- C6 counterexample: the Go struct has no `auth` field, so an entry
supplying both `auth` and `username` is NOT rejected — `encoding/json`
silently drops the unknown `auth` key, the service logs in with the
username/password pair, and the requested command is executed. -/
theorem c6_auth_and_username_not_rejected :
    decodeCredential jAuthBoth =
      .ok { registry := "reg.example", username := "u", password := "p", insecure := false } ∧
    ∃ t ∈ handleConnection (.line (.ok jReqAuthBoth)) envOkLogin,
      Ev.loginCall "reg.example" "u" "p" false ∈ t.trace ∧
      Ev.execStart "executor" [] ∈ t.trace := by
  have hrun : handleConnection (.line (.ok jReqAuthBoth)) envOkLogin = [runAuthBoth] := rfl
  refine ⟨rfl, runAuthBoth, ?_, ?_, ?_⟩
  · rw [hrun]
    exact List.mem_singleton.mpr rfl
  · exact List.mem_cons_of_mem _ (List.mem_cons_self _ _)
  · exact List.mem_cons_of_mem _ (List.mem_cons_of_mem _
      (List.mem_cons_of_mem _ (List.mem_cons_self _ _)))

theorem setCredField_auth (c : inputCredentials) (v : Json) :
    setCredField c ("auth", v) = .ok c := by
  cases v <;> rfl

theorem foldlM_ignore_auth (v : Json) :
    ∀ (fs1 fs2 : List (String × Json)) (c : inputCredentials),
      List.foldlM setCredField c (fs1 ++ ("auth", v) :: fs2) =
        List.foldlM setCredField c (fs1 ++ fs2) := by
  intro fs1
  induction fs1 with
  | nil =>
    intro fs2 c
    rw [List.nil_append, List.nil_append, List.foldlM_cons, setCredField_auth]
    rfl
  | cons f fs ih =>
    intro fs2 c
    rw [List.cons_append, List.cons_append, List.foldlM_cons, List.foldlM_cons]
    cases h : setCredField c f with
    | ok c2 => exact ih fs2 c2
    | error e => rfl

/-- C6 amended: the decoder has no `auth` field, so an `auth` key is
ignored wherever it occurs in a credential entry — decoding behaves
exactly as if the key were absent — and in particular the request with
both `auth` and `username` decodes successfully into a username/password
entry that is then used for login while the command executes normally. -/
theorem c6_amended_auth_ignored :
    (∀ (v : Json) (fs1 fs2 : List (String × Json)),
      decodeCredential (Json.obj (fs1 ++ ("auth", v) :: fs2)) =
        decodeCredential (Json.obj (fs1 ++ fs2))) ∧
    decodeRequest jReqAuthBoth =
      .ok { command := ["executor"],
            credentials := [{ registry := "reg.example", username := "u",
                              password := "p", insecure := false }] } := by
  constructor
  · intro v fs1 fs2
    simp only [decodeCredential]
    exact foldlM_ignore_auth v fs1 fs2 {}
  · rfl

theorem credBeforeExec_of_no_exec {t : List Ev}
    (h : t.all (fun e => !isExec e) = true) : credBeforeExec t = true := by
  unfold credBeforeExec
  rw [dropWhile_eq_nil_of_all h]
  rfl

/-- C5: on every connection, all credential processing (the per-entry
`auth.Login` calls, which persist to the auth file) happens strictly
before the requested command starts executing; and if any credential entry
fails, the command is never started and the connection reports
`status: FAILED`. -/
theorem c5_credentials_precede_execution (wire : WireInput) (env : Env) (t : HRun)
    (ht : t ∈ handleConnection wire env) :
    credBeforeExec t.trace = true ∧
    (∀ j req, wire = .line (.ok j) → decodeRequest j = .ok req →
      (credPhase env.login req.credentials).2.isSome = true →
      t.trace.all (fun e => !isExec e) = true ∧
      Ev.statusLine "status: FAILED" ∈ t.trace) := by
  rcases handleConnection_mem wire env t ht with
    ⟨hw, rfl⟩ | ⟨e, hw, rfl⟩ | ⟨j, e, hw, hd, rfl⟩ | ⟨j, req, hw, hd, hrr⟩
  · refine ⟨rfl, ?_⟩
    intro j' req' hwj hd' hsome
    rw [hw] at hwj
    simp at hwj
  · refine ⟨rfl, ?_⟩
    intro j' req' hwj hd' hsome
    rw [hw] at hwj
    simp at hwj
  · refine ⟨rfl, ?_⟩
    intro j' req' hwj hd' hsome
    rw [hw] at hwj
    simp only [WireInput.line.injEq, Except.ok.injEq] at hwj
    subst hwj
    rw [hd] at hd'
    simp at hd'
  · have hreq : ∀ j' req', wire = .line (.ok j') → decodeRequest j' = .ok req' →
        req' = req := by
      intro j' req' hwj hd'
      rw [hw] at hwj
      simp only [WireInput.line.injEq, Except.ok.injEq] at hwj
      subst hwj
      rw [hd] at hd'
      simpa using hd'.symm
    rcases runRequest_mem req env t hrr with
      ⟨e, hcr, rfl⟩ | ⟨hcr, hcmd, rfl⟩ | ⟨e, hcr, hcmd, herr, rfl⟩ |
      ⟨prog, args, m, hcr, hcmd, h1, h2, h3, hm, rfl⟩
    · have hall : ((credPhase env.login req.credentials).1 ++ returnErrorEvs e).all
          (fun x => !isExec x) = true := by
        rw [List.all_append, Bool.and_eq_true]
        exact ⟨credPhase_no_exec env.login req.credentials, rfl⟩
      refine ⟨credBeforeExec_of_no_exec hall, ?_⟩
      intro j' req' hwj hd' hsome
      obtain rfl := hreq j' req' hwj hd'
      refine ⟨hall, List.mem_append.mpr (Or.inr ?_)⟩
      simp [returnErrorEvs]
    · have hall : ((credPhase env.login req.credentials).1 ++
          [runningLogMsg req.command]).all (fun x => !isExec x) = true := by
        rw [List.all_append, Bool.and_eq_true]
        exact ⟨credPhase_no_exec env.login req.credentials, rfl⟩
      refine ⟨credBeforeExec_of_no_exec hall, ?_⟩
      intro j' req' hwj hd' hsome
      obtain rfl := hreq j' req' hwj hd'
      rw [hcr] at hsome
      simp at hsome
    · have hall : ((credPhase env.login req.credentials).1 ++
          [runningLogMsg req.command] ++ returnErrorEvs e).all
          (fun x => !isExec x) = true := by
        rw [List.all_append, List.all_append, Bool.and_eq_true, Bool.and_eq_true]
        exact ⟨⟨credPhase_no_exec env.login req.credentials, rfl⟩, rfl⟩
      refine ⟨credBeforeExec_of_no_exec hall, ?_⟩
      intro j' req' hwj hd' hsome
      obtain rfl := hreq j' req' hwj hd'
      rw [hcr] at hsome
      simp at hsome
    · constructor
      · unfold credBeforeExec
        rw [List.append_assoc]
        rw [dropWhile_append_of_all _ (credPhase_no_exec env.login req.credentials)]
        have hstep : (([runningLogMsg req.command, Ev.execStart prog args] ++ m).dropWhile
            (fun e => !isExec e)) = Ev.execStart prog args :: m := by
          simp [List.cons_append, List.dropWhile_cons, runningLogMsg, isExec]
        rw [hstep, List.all_cons, Bool.and_eq_true]
        exact ⟨rfl, (merges3_no_exec_login env hm).2⟩
      · intro j' req' hwj hd' hsome
        obtain rfl := hreq j' req' hwj hd'
        rw [hcr] at hsome
        simp at hsome

/-- A request with one username/password credential entry and the command
`["executor"]`. -/
def jReqCredOnly : Json :=
  Json.obj [("command", Json.arr [Json.str "executor"]),
            ("credentials", Json.arr [Json.obj [("registry", Json.str "r1"),
              ("username", Json.str "u1"), ("password", Json.str "p1")]])]

/-- An environment in which every registry login fails. -/
def envFailLogin : Env := { login := fun _ => some "login denied" }

/-- The unique run of `jReqCredOnly` under `envFailLogin`. -/
def runCredFail : HRun :=
  ⟨[.logMsg "Logging in to r1", .loginCall "r1" "u1" "p1" false,
    .errLine "login denied", .statusLine "status: FAILED"], false⟩

/-- C5 witness: a failing login reports FAILED and never starts the
command. -/
theorem c5_witness :
    runCredFail ∈ handleConnection (.line (.ok jReqCredOnly)) envFailLogin ∧
    (credBeforeExec runCredFail.trace = true ∧
     (∀ j req, WireInput.line (.ok jReqCredOnly) = .line (.ok j) →
       decodeRequest j = .ok req →
       (credPhase envFailLogin.login req.credentials).2.isSome = true →
       runCredFail.trace.all (fun e => !isExec e) = true ∧
       Ev.statusLine "status: FAILED" ∈ runCredFail.trace)) := by
  have hrun : handleConnection (.line (.ok jReqCredOnly)) envFailLogin = [runCredFail] := rfl
  have hmem : runCredFail ∈ handleConnection (.line (.ok jReqCredOnly)) envFailLogin := by
    rw [hrun]
    exact List.mem_singleton.mpr rfl
  exact ⟨hmem, c5_credentials_precede_execution _ _ _ hmem⟩

/-- C10: the `insecure` flag of a credential entry affects only that
entry's login call — every login event carries exactly its entry's fields,
with the TLS-skip option equal to that entry's `insecure` — and the
executed command is always exactly the request's `command` sequence,
independent of any credential contents. -/
theorem c10_insecure_scoped_to_login (wire : WireInput) (env : Env) (t : HRun)
    (ht : t ∈ handleConnection wire env) :
    (∀ prog args, Ev.execStart prog args ∈ t.trace →
      ∃ j req, wire = .line (.ok j) ∧ decodeRequest j = .ok req ∧
        req.command = prog :: args) ∧
    (∀ r u pw sk, Ev.loginCall r u pw sk ∈ t.trace →
      ∃ j req, wire = .line (.ok j) ∧ decodeRequest j = .ok req ∧
        (⟨r, u, pw, sk⟩ : inputCredentials) ∈ req.credentials) := by
  rcases handleConnection_mem wire env t ht with
    ⟨hw, rfl⟩ | ⟨e, hw, rfl⟩ | ⟨j, e, hw, hd, rfl⟩ | ⟨j, req, hw, hd, hrr⟩
  · exact ⟨fun prog args hmem => by simp at hmem,
           fun r u pw sk hmem => by simp at hmem⟩
  · exact ⟨fun prog args hmem => by simp [returnErrorEvs] at hmem,
           fun r u pw sk hmem => by simp [returnErrorEvs] at hmem⟩
  · exact ⟨fun prog args hmem => by simp [returnErrorEvs] at hmem,
           fun r u pw sk hmem => by simp [returnErrorEvs] at hmem⟩
  · have hnoexec : ∀ {x : Ev}, x ∈ (credPhase env.login req.credentials).1 →
        isExec x = false :=
      fun hx => not_mem_of_all_not (credPhase_no_exec env.login req.credentials) hx
    have hlogin : ∀ r u pw sk,
        Ev.loginCall r u pw sk ∈ (credPhase env.login req.credentials).1 →
        ∃ j' req', wire = .line (.ok j') ∧ decodeRequest j' = .ok req' ∧
          (⟨r, u, pw, sk⟩ : inputCredentials) ∈ req'.credentials :=
      fun r u pw sk hx =>
        ⟨j, req, hw, hd, credPhase_login_mem env.login req.credentials r u pw sk hx⟩
    rcases runRequest_mem req env t hrr with
      ⟨e, hcr, rfl⟩ | ⟨hcr, hcmd, rfl⟩ | ⟨e, hcr, hcmd, herr, rfl⟩ |
      ⟨prog, args, m, hcr, hcmd, h1, h2, h3, hm, rfl⟩
    · constructor
      · intro prog args hmem
        simp only [List.mem_append, returnErrorEvs, List.mem_cons,
          List.not_mem_nil, or_false] at hmem
        rcases hmem with hmem | hmem | hmem
        · exact absurd (hnoexec hmem) (by simp [isExec])
        · exact absurd hmem (by simp)
        · exact absurd hmem (by simp)
      · intro r u pw sk hmem
        simp only [List.mem_append, returnErrorEvs, List.mem_cons,
          List.not_mem_nil, or_false] at hmem
        rcases hmem with hmem | hmem | hmem
        · exact hlogin r u pw sk hmem
        · exact absurd hmem (by simp)
        · exact absurd hmem (by simp)
    · constructor
      · intro prog args hmem
        simp only [List.mem_append, List.mem_cons, List.not_mem_nil, or_false] at hmem
        rcases hmem with hmem | hmem
        · exact absurd (hnoexec hmem) (by simp [isExec])
        · exact absurd hmem (by simp [runningLogMsg])
      · intro r u pw sk hmem
        simp only [List.mem_append, List.mem_cons, List.not_mem_nil, or_false] at hmem
        rcases hmem with hmem | hmem
        · exact hlogin r u pw sk hmem
        · exact absurd hmem (by simp [runningLogMsg])
    · constructor
      · intro prog args hmem
        simp only [List.mem_append, returnErrorEvs, List.mem_cons,
          List.not_mem_nil, or_false] at hmem
        rcases hmem with (hmem | hmem) | hmem | hmem
        · exact absurd (hnoexec hmem) (by simp [isExec])
        · exact absurd hmem (by simp [runningLogMsg])
        · exact absurd hmem (by simp)
        · exact absurd hmem (by simp)
      · intro r u pw sk hmem
        simp only [List.mem_append, returnErrorEvs, List.mem_cons,
          List.not_mem_nil, or_false] at hmem
        rcases hmem with (hmem | hmem) | hmem | hmem
        · exact hlogin r u pw sk hmem
        · exact absurd hmem (by simp [runningLogMsg])
        · exact absurd hmem (by simp)
        · exact absurd hmem (by simp)
    · have hmno := merges3_no_exec_login env hm
      constructor
      · intro prog' args' hmem
        simp only [List.mem_append, List.mem_cons, List.not_mem_nil, or_false] at hmem
        rcases hmem with (hmem | hmem | hmem) | hmem
        · exact absurd (hnoexec hmem) (by simp [isExec])
        · exact absurd hmem (by simp [runningLogMsg])
        · rw [Ev.execStart.injEq] at hmem
          exact ⟨j, req, hw, hd, by rw [hcmd, hmem.1, hmem.2]⟩
        · have := not_mem_of_all_not hmno.1 hmem
          simp [isExec] at this
      · intro r u pw sk hmem
        simp only [List.mem_append, List.mem_cons, List.not_mem_nil, or_false] at hmem
        rcases hmem with (hmem | hmem | hmem) | hmem
        · exact hlogin r u pw sk hmem
        · exact absurd hmem (by simp [runningLogMsg])
        · exact absurd hmem (by simp)
        · have := not_mem_of_all_not hmno.2 hmem
          simp [isLogin] at this

/-- C10 witness: in the concrete run of `jReqAuthBoth`, the exec event is
exactly the request's command and the login event carries the entry's own
fields. -/
theorem c10_witness :
    runAuthBoth ∈ handleConnection (.line (.ok jReqAuthBoth)) envOkLogin ∧
    ((∀ prog args, Ev.execStart prog args ∈ runAuthBoth.trace →
      ∃ j req, WireInput.line (.ok jReqAuthBoth) = .line (.ok j) ∧
        decodeRequest j = .ok req ∧ req.command = prog :: args) ∧
     (∀ r u pw sk, Ev.loginCall r u pw sk ∈ runAuthBoth.trace →
      ∃ j req, WireInput.line (.ok jReqAuthBoth) = .line (.ok j) ∧
        decodeRequest j = .ok req ∧
        (⟨r, u, pw, sk⟩ : inputCredentials) ∈ req.credentials)) := by
  have hrun : handleConnection (.line (.ok jReqAuthBoth)) envOkLogin = [runAuthBoth] := rfl
  have hmem : runAuthBoth ∈ handleConnection (.line (.ok jReqAuthBoth)) envOkLogin := by
    rw [hrun]
    exact List.mem_singleton.mpr rfl
  exact ⟨hmem, c10_insecure_scoped_to_login _ _ _ hmem⟩

/-- The connection reached a successful `cmd.Start()`: the request
decoded, every login succeeded, the command is non-empty, and pipe
creation and `Start` reported no error. -/
def startedPath (wire : WireInput) (env : Env) : Prop :=
  ∃ j req, wire = .line (.ok j) ∧ decodeRequest j = .ok req ∧
    (credPhase env.login req.credentials).2 = none ∧ req.command ≠ [] ∧
    env.stdoutPipeErr = none ∧ env.stderrPipeErr = none ∧ env.startErr = none

/-- C1 amended: the service's own report writes on a connection are: after
a started command exits 0, exactly the single line `status: SUCCESS` (and
never a service-written `status: FAILED`); after a started command exits
non-zero, the error text followed by `status: FAILED`; and on a parse
error, a decode error, a credential failure, or a spawn failure, the error
text followed by `status: FAILED`.  (The child's own output bytes are
forwarded verbatim in addition and are not report writes.) -/
theorem c1_service_status_writes (wire : WireInput) (env : Env) (t : HRun)
    (ht : t ∈ handleConnection wire env) :
    (startedPath wire env → env.waitErr = none →
      reports t.trace = [.statusLine "status: SUCCESS"]) ∧
    (∀ e, startedPath wire env → env.waitErr = some e →
      reports t.trace = [.errLine e, .statusLine "status: FAILED"]) ∧
    (∀ e, wire = .line (.error e) →
      reports t.trace = [.errLine e, .statusLine "status: FAILED"]) ∧
    (∀ j e, wire = .line (.ok j) → decodeRequest j = .error e →
      reports t.trace = [.errLine e, .statusLine "status: FAILED"]) ∧
    (∀ j req e, wire = .line (.ok j) → decodeRequest j = .ok req →
      (credPhase env.login req.credentials).2 = some e →
      reports t.trace = [.errLine e, .statusLine "status: FAILED"]) ∧
    (∀ j req e, wire = .line (.ok j) → decodeRequest j = .ok req →
      (credPhase env.login req.credentials).2 = none → req.command ≠ [] →
      env.stdoutPipeErr = none → env.stderrPipeErr = none → env.startErr = some e →
      reports t.trace = [.errLine e, .statusLine "status: FAILED"]) := by
  rcases handleConnection_mem wire env t ht with
    ⟨hw, rfl⟩ | ⟨e0, hw, rfl⟩ | ⟨j0, e0, hw, hd, rfl⟩ | ⟨j0, req, hw, hd, hrr⟩
  · refine ⟨?_, ?_, ?_, ?_, ?_, ?_⟩
    · intro hsp _
      obtain ⟨j, req, hwj, _⟩ := hsp
      rw [hw] at hwj
      simp at hwj
    · intro e hsp _
      obtain ⟨j, req, hwj, _⟩ := hsp
      rw [hw] at hwj
      simp at hwj
    · intro e hwj
      rw [hw] at hwj
      simp at hwj
    · intro j e hwj _
      rw [hw] at hwj
      simp at hwj
    · intro j req e hwj _ _
      rw [hw] at hwj
      simp at hwj
    · intro j req e hwj _ _ _ _ _ _
      rw [hw] at hwj
      simp at hwj
  · refine ⟨?_, ?_, ?_, ?_, ?_, ?_⟩
    · intro hsp _
      obtain ⟨j, req, hwj, _⟩ := hsp
      rw [hw] at hwj
      simp at hwj
    · intro e hsp _
      obtain ⟨j, req, hwj, _⟩ := hsp
      rw [hw] at hwj
      simp at hwj
    · intro e hwj
      rw [hw] at hwj
      simp only [WireInput.line.injEq, Except.error.injEq] at hwj
      subst hwj
      rfl
    · intro j e hwj _
      rw [hw] at hwj
      simp at hwj
    · intro j req e hwj _ _
      rw [hw] at hwj
      simp at hwj
    · intro j req e hwj _ _ _ _ _ _
      rw [hw] at hwj
      simp at hwj
  · have hok : ∀ {j : Json} {req : inputRequest}, wire = .line (.ok j) →
        decodeRequest j = .ok req → False := by
      intro j req hwj hd'
      rw [hw] at hwj
      simp only [WireInput.line.injEq, Except.ok.injEq] at hwj
      subst hwj
      rw [hd] at hd'
      simp at hd'
    refine ⟨?_, ?_, ?_, ?_, ?_, ?_⟩
    · intro hsp _
      obtain ⟨j, req, hwj, hd', _⟩ := hsp
      exact (hok hwj hd').elim
    · intro e hsp _
      obtain ⟨j, req, hwj, hd', _⟩ := hsp
      exact (hok hwj hd').elim
    · intro e hwj
      rw [hw] at hwj
      simp at hwj
    · intro j e hwj hd'
      rw [hw] at hwj
      simp only [WireInput.line.injEq, Except.ok.injEq] at hwj
      subst hwj
      rw [hd] at hd'
      simp only [Except.error.injEq] at hd'
      subst hd'
      rfl
    · intro j req e hwj hd' _
      exact (hok hwj hd').elim
    · intro j req e hwj hd' _ _ _ _ _
      exact (hok hwj hd').elim
  · have hreq : ∀ {j' : Json} {req' : inputRequest}, wire = .line (.ok j') →
        decodeRequest j' = .ok req' → req' = req := by
      intro j' req' hwj hd'
      rw [hw] at hwj
      simp only [WireInput.line.injEq, Except.ok.injEq] at hwj
      subst hwj
      rw [hd] at hd'
      simpa using hd'.symm
    have hwireok : ∀ {e : String}, wire = .line (.error e) → False := by
      intro e hwj
      rw [hw] at hwj
      simp at hwj
    have hdecok : ∀ {j' : Json} {e : String}, wire = .line (.ok j') →
        decodeRequest j' = .error e → False := by
      intro j' e hwj hd'
      rw [hw] at hwj
      simp only [WireInput.line.injEq, Except.ok.injEq] at hwj
      subst hwj
      rw [hd] at hd'
      simp at hd'
    rcases runRequest_mem req env t hrr with
      ⟨e0, hcr, rfl⟩ | ⟨hcr, hcmd, rfl⟩ | ⟨e0, hcr, hcmd, herr, rfl⟩ |
      ⟨prog, args, m, hcr, hcmd, h1, h2, h3, hm, rfl⟩
    · have hrep : reports ((credPhase env.login req.credentials).1 ++ returnErrorEvs e0) =
          [Ev.errLine e0, Ev.statusLine "status: FAILED"] := by
        rw [reports_append, credPhase_no_report]
        rfl
      refine ⟨?_, ?_, ?_, ?_, ?_, ?_⟩
      · intro hsp _
        obtain ⟨j', req', hwj, hd', hcr', _⟩ := hsp
        obtain rfl := hreq hwj hd'
        rw [hcr] at hcr'
        simp at hcr'
      · intro e hsp _
        obtain ⟨j', req', hwj, hd', hcr', _⟩ := hsp
        obtain rfl := hreq hwj hd'
        rw [hcr] at hcr'
        simp at hcr'
      · intro e hwj
        exact (hwireok hwj).elim
      · intro j' e hwj hd'
        exact (hdecok hwj hd').elim
      · intro j' req' e hwj hd' hcr'
        obtain rfl := hreq hwj hd'
        rw [hcr] at hcr'
        simp only [Option.some.injEq] at hcr'
        subst hcr'
        exact hrep
      · intro j' req' e hwj hd' hcr' _ _ _ _
        obtain rfl := hreq hwj hd'
        rw [hcr] at hcr'
        simp at hcr'
    · refine ⟨?_, ?_, ?_, ?_, ?_, ?_⟩
      · intro hsp _
        obtain ⟨j', req', hwj, hd', _, hcmd', _⟩ := hsp
        obtain rfl := hreq hwj hd'
        exact absurd hcmd hcmd'
      · intro e hsp _
        obtain ⟨j', req', hwj, hd', _, hcmd', _⟩ := hsp
        obtain rfl := hreq hwj hd'
        exact absurd hcmd hcmd'
      · intro e hwj
        exact (hwireok hwj).elim
      · intro j' e hwj hd'
        exact (hdecok hwj hd').elim
      · intro j' req' e hwj hd' hcr'
        obtain rfl := hreq hwj hd'
        rw [hcr] at hcr'
        simp at hcr'
      · intro j' req' e hwj hd' _ hcmd' _ _ _
        obtain rfl := hreq hwj hd'
        exact absurd hcmd hcmd'
    · have hrep : reports ((credPhase env.login req.credentials).1 ++
          [runningLogMsg req.command] ++ returnErrorEvs e0) =
          [Ev.errLine e0, Ev.statusLine "status: FAILED"] := by
        rw [reports_append, reports_append, credPhase_no_report]
        rfl
      refine ⟨?_, ?_, ?_, ?_, ?_, ?_⟩
      · intro hsp _
        obtain ⟨j', req', hwj, hd', _, _, hp1, hp2, hp3⟩ := hsp
        obtain rfl := hreq hwj hd'
        rcases herr with h | ⟨_, h⟩ | ⟨_, _, h⟩
        · rw [hp1] at h
          simp at h
        · rw [hp2] at h
          simp at h
        · rw [hp3] at h
          simp at h
      · intro e hsp _
        obtain ⟨j', req', hwj, hd', _, _, hp1, hp2, hp3⟩ := hsp
        obtain rfl := hreq hwj hd'
        rcases herr with h | ⟨_, h⟩ | ⟨_, _, h⟩
        · rw [hp1] at h
          simp at h
        · rw [hp2] at h
          simp at h
        · rw [hp3] at h
          simp at h
      · intro e hwj
        exact (hwireok hwj).elim
      · intro j' e hwj hd'
        exact (hdecok hwj hd').elim
      · intro j' req' e hwj hd' hcr'
        obtain rfl := hreq hwj hd'
        rw [hcr] at hcr'
        simp at hcr'
      · intro j' req' e hwj hd' _ _ hp1 hp2 hp3
        obtain rfl := hreq hwj hd'
        rcases herr with h | ⟨_, h⟩ | ⟨_, _, h⟩
        · rw [hp1] at h
          simp at h
        · rw [hp2] at h
          simp at h
        · rw [hp3] at h
          simp only [Option.some.injEq] at h
          subst h
          exact hrep
    · have hrep : reports ((credPhase env.login req.credentials).1 ++
          [runningLogMsg req.command, Ev.execStart prog args] ++ m) =
          tailTask env := by
        rw [reports_append, reports_append, credPhase_no_report, merges3_reports env hm]
        rfl
      refine ⟨?_, ?_, ?_, ?_, ?_, ?_⟩
      · intro _ hwait
        rw [hrep]
        unfold tailTask
        rw [hwait]
      · intro e _ hwait
        rw [hrep]
        unfold tailTask
        rw [hwait]
        rfl
      · intro e hwj
        exact (hwireok hwj).elim
      · intro j' e hwj hd'
        exact (hdecok hwj hd').elim
      · intro j' req' e hwj hd' hcr'
        obtain rfl := hreq hwj hd'
        rw [hcr] at hcr'
        simp at hcr'
      · intro j' req' e hwj hd' _ _ _ _ hp3
        obtain rfl := hreq hwj hd'
        rw [h3] at hp3
        simp at hp3

/-- The request line `{"command":["echo","hello"]}`. -/
def jEchoHello : Json :=
  Json.obj [("command", Json.arr [Json.str "echo", Json.str "hello"])]

/-- Environment for the `echo hello` scenario: no credentials consulted,
the child writes `hello\n` on stdout and exits 0. -/
def envEchoHello : Env := { login := fun _ => none, childOut := ["hello\n"] }

/-- The `echo hello` run in which the copier drains before the status
write. -/
def runEchoHelloDrained : HRun :=
  ⟨[.logMsg "Running command: [echo hello]", .execStart "echo" ["hello"],
    .childChunk .stdout "hello\n", .statusLine "status: SUCCESS"], false⟩

/-- The `echo hello` run in which `Wait` returns and the status line is
written before the copier flushes the chunk. -/
def runEchoHelloRaced : HRun :=
  ⟨[.logMsg "Running command: [echo hello]", .execStart "echo" ["hello"],
    .statusLine "status: SUCCESS", .childChunk .stdout "hello\n"], false⟩

theorem echoHello_runs :
    handleConnection (.line (.ok jEchoHello)) envEchoHello =
      [runEchoHelloDrained, runEchoHelloRaced] := rfl

/-- C1 witness: the `echo hello` request with exit status 0 yields exactly
the single report write `status: SUCCESS`. -/
theorem c1_witness :
    runEchoHelloDrained ∈ handleConnection (.line (.ok jEchoHello)) envEchoHello ∧
    startedPath (.line (.ok jEchoHello)) envEchoHello ∧
    envEchoHello.waitErr = none ∧
    reports runEchoHelloDrained.trace = [.statusLine "status: SUCCESS"] := by
  have hmem : runEchoHelloDrained ∈ handleConnection (.line (.ok jEchoHello)) envEchoHello := by
    rw [echoHello_runs]
    exact List.mem_cons_self _ _
  have hsp : startedPath (.line (.ok jEchoHello)) envEchoHello :=
    ⟨jEchoHello, { command := ["echo", "hello"], credentials := [] },
      rfl, rfl, rfl, by simp, rfl, rfl, rfl⟩
  exact ⟨hmem, hsp, rfl, (c1_service_status_writes _ _ _ hmem).1 hsp rfl⟩

/-- The request line `{"command":["echo","status: FAILED"]}`: a command
that exits 0 after printing the literal text `status: FAILED`. -/
def jFakeFail : Json :=
  Json.obj [("command", Json.arr [Json.str "echo", Json.str "status: FAILED"])]

/-- Environment for `jFakeFail`: the child prints `status: FAILED` and
exits 0. -/
def envFakeFail : Env := { login := fun _ => none, childOut := ["status: FAILED\n"] }

/-- The drained run of the `jFakeFail` request. -/
def runFakeFail : HRun :=
  ⟨[.logMsg "Running command: [echo status: FAILED]",
    .execStart "echo" ["status: FAILED"],
    .childChunk .stdout "status: FAILED\n", .statusLine "status: SUCCESS"], false⟩

/-- C1 counterexample: a command that exits 0 can itself print the line
`status: FAILED`; the child's bytes are forwarded verbatim to the
connection, so the connection's byte stream contains a `status: FAILED`
line even though the command succeeded — the claim that no such line
appears is false. -/
theorem c1_child_output_can_fake_failed :
    runFakeFail ∈ handleConnection (.line (.ok jFakeFail)) envFakeFail ∧
    envFakeFail.waitErr = none ∧
    connBytes runFakeFail.trace = "status: FAILED\nstatus: SUCCESS\n" ∧
    "status: FAILED" ∈ textLines (connBytes runFakeFail.trace) := by
  refine ⟨?_, rfl, by decide, by decide⟩
  have hrun : handleConnection (.line (.ok jFakeFail)) envFakeFail =
      [runFakeFail,
       ⟨[.logMsg "Running command: [echo status: FAILED]",
         .execStart "echo" ["status: FAILED"],
         .statusLine "status: SUCCESS", .childChunk .stdout "status: FAILED\n"],
        false⟩] := rfl
  rw [hrun]
  exact List.mem_cons_self _ _

/-- C3 (code bug): the two `io.Copy` goroutines are never joined — the
code calls `cmd.Wait()` and writes the status line with no
synchronization against the copiers, so there is a reachable schedule in
which the terminal status line is written before the stdout copier's
final chunk.  In that run the last bytes on the connection are child
output, not the status line. -/
theorem c3_status_line_not_last :
    runEchoHelloRaced ∈ handleConnection (.line (.ok jEchoHello)) envEchoHello ∧
    envEchoHello.waitErr = none ∧
    connBytes runEchoHelloRaced.trace = "status: SUCCESS\nhello\n" ∧
    runEchoHelloRaced.trace.getLast? = some (.childChunk .stdout "hello\n") := by
  refine ⟨?_, rfl, by decide, by decide⟩
  rw [echoHello_runs]
  exact List.mem_cons_of_mem _ (List.mem_cons_self _ _)

/-- Is the event a `returnError` error line? -/
def isErrLine : Ev → Bool
  | .errLine _ => true
  | _ => false

/-- C8 counterexample: the terminal status line is written by
`fmt.Fprintln(conn, ...)` to the remote connection only — it never reaches
the local console, so console output does not mirror everything sent
remotely. -/
theorem c8_status_not_mirrored :
    runEchoHelloDrained ∈ handleConnection (.line (.ok jEchoHello)) envEchoHello ∧
    Ev.statusLine "status: SUCCESS" ∈ runEchoHelloDrained.trace ∧
    connStr (Ev.statusLine "status: SUCCESS") = "status: SUCCESS\n" ∧
    consoleStr (Ev.statusLine "status: SUCCESS") = "" := by
  refine ⟨?_, by decide, rfl, rfl⟩
  rw [echoHello_runs]
  exact List.mem_cons_self _ _

/-- C8 amended: child-output bytes and error lines are written identically
to the console and to the connection (the `MultiWriter`, and
`returnError`'s paired `Fprintln`/`log.Println`), but the terminal
`status:` lines go to the connection only (and the progress log messages
to the console only). -/
theorem c8_selective_mirroring (wire : WireInput) (env : Env) (t : HRun)
    (ht : t ∈ handleConnection wire env) :
    ((t.trace.filter (fun e => isChildChunk e || isErrLine e)).map consoleStr =
     (t.trace.filter (fun e => isChildChunk e || isErrLine e)).map connStr) ∧
    (∀ s, Ev.statusLine s ∈ t.trace →
      consoleStr (Ev.statusLine s) = "" ∧ connStr (Ev.statusLine s) = s ++ "\n") := by
  constructor
  · apply List.map_congr_left
    intro e he
    rw [List.mem_filter] at he
    cases e <;> simp_all [isChildChunk, isErrLine, consoleStr, connStr]
  · intro s _
    exact ⟨rfl, rfl⟩

/-- C8 witness: the amended mirroring property at the `echo hello` run. -/
theorem c8_witness :
    runEchoHelloDrained ∈ handleConnection (.line (.ok jEchoHello)) envEchoHello ∧
    ((runEchoHelloDrained.trace.filter
        (fun e => isChildChunk e || isErrLine e)).map consoleStr =
     (runEchoHelloDrained.trace.filter
        (fun e => isChildChunk e || isErrLine e)).map connStr) ∧
    (∀ s, Ev.statusLine s ∈ runEchoHelloDrained.trace →
      consoleStr (Ev.statusLine s) = "" ∧ connStr (Ev.statusLine s) = s ++ "\n") := by
  have hmem : runEchoHelloDrained ∈ handleConnection (.line (.ok jEchoHello)) envEchoHello := by
    rw [echoHello_runs]
    exact List.mem_cons_self _ _
  obtain ⟨h1, h2⟩ := c8_selective_mirroring _ _ _ hmem
  exact ⟨hmem, h1, h2⟩

end KanikoRunner
